import Mathlib

/-!
Verification of the DeepDive research-chat streaming merge state machine.

The definitions below are a shallow embedding of the `handleSend` function of
src/App.tsx together with the data model it manipulates (messages, the artifact
text buffer, the grounding-source list).  Rendering, auto-scroll and clipboard
code is presentation plumbing and is not modelled.
-/

namespace DeepDive

/-- Role of a chat message, as in the Message interface of src/App.tsx. -/
inductive Role where
  | user
  | ai
  | system
deriving DecidableEq, Repr

/-- A chat message: id, role, content, timestamp (src/App.tsx, Message). -/
structure Message where
  id : String
  role : Role
  content : String
  timestamp : Nat
deriving DecidableEq, Repr

/-- The web payload of a grounding chunk: uri and title (src/App.tsx, GroundingChunk). -/
structure WebSource where
  uri : String
  title : String
deriving DecidableEq, Repr

/-- A grounding chunk; the web field is optional (src/App.tsx, GroundingChunk). -/
structure GroundingChunk where
  web : Option WebSource
deriving DecidableEq, Repr

/-- Outcome of accessing the text of a streamed response chunk.  In the source,
reading chunk.text either yields a string (possibly empty, also when the field
is absent, via the JS expression chunk.text || two quotes) or raises when the
content was blocked by safety settings. -/
inductive TextAccess where
  | ok (t : String)
  | throws
deriving DecidableEq, Repr

/-- One streamed response chunk: its text-access outcome and the optional
grounding-chunk list found at chunk.candidates[0].groundingMetadata.groundingChunks. -/
structure StreamChunk where
  text : TextAccess
  groundingChunks : Option (List GroundingChunk)
deriving DecidableEq, Repr

/-- The application state manipulated by handleSend: input box, message list,
researching flag, artifact buffer, grounding-source list (src/App.tsx lines 39-52). -/
structure AppState where
  input : String
  messages : List Message
  isResearching : Bool
  artifactContent : String
  groundingSources : List GroundingChunk
deriving DecidableEq, Repr

/-- Does some element of prev carry the given uri?  Mirrors membership in the
JS set new Set(prev.map(c => c.web?.uri)) tested against a defined uri
(src/App.tsx line 124). -/
def hasUri (prev : List GroundingChunk) (uri : String) : Bool :=
  prev.any (fun c => c.web.map (fun w => w.uri) == some uri)

/-- The filter applied to an incoming batch of grounding chunks: keep a chunk
when its web.uri exists, is non-empty (JS truthiness) and is not already
present in prev (src/App.tsx line 125). -/
def keepNew (prev : List GroundingChunk) (c : GroundingChunk) : Bool :=
  match c.web with
  | some w => w.uri != "" && !(hasUri prev w.uri)
  | none => false

/-- The grounding-source merge: previous list followed by the filtered incoming
batch (src/App.tsx lines 121-127). -/
def mergeSources (prev newChunks : List GroundingChunk) : List GroundingChunk :=
  prev ++ newChunks.filter (keepNew prev)

/-- Processing of one chunk by the loop body of src/App.tsx lines 104-129,
acting on the pair (artifactContent, groundingSources).  A chunk whose text
access throws is skipped wholesale by the continue statement; otherwise
non-empty text is appended and any grounding chunks are merged. -/
def processChunk (st : String × List GroundingChunk) (c : StreamChunk) :
    String × List GroundingChunk :=
  match c.text with
  | .throws => st
  | .ok t =>
    let art := if t != "" then st.1 ++ t else st.1
    let srcs :=
      match c.groundingChunks with
      | some gs => mergeSources st.2 gs
      | none => st.2
    (art, srcs)

/-- Chunk arrival as a transition on the full application state. -/
def onChunk (st : AppState) (c : StreamChunk) : AppState :=
  let p := processChunk (st.artifactContent, st.groundingSources) c
  { st with artifactContent := p.1, groundingSources := p.2 }

/-- The session separator inserted between research sessions (src/App.tsx line 92). -/
def separator : String := "\n\n---\n\n"

/-- The artifact update performed at submission: append the separator when the
buffer is non-empty, keep it empty otherwise (src/App.tsx line 92). -/
def submitArtifact (prev : String) : String :=
  if prev != "" then prev ++ separator else ""

/-- Content of the transient system status message (src/App.tsx line 97). -/
def thinkingContent : String := "Conducting deep search and analysis..."

/-- Content of the error message appended when the stream fails (src/App.tsx line 146). -/
def errorContent : String := "An error occurred during research. Please try again."

/-- Content of the completion message (src/App.tsx line 136). -/
def completionContent (topic : String) : String :=
  "I\x27ve updated the research artifact with findings on \"" ++ topic ++ "\"."

/-- The fresh identifiers and timestamps a run of handleSend draws from
Date.now(): ids for the user message, the transient status message, and the
final (completion or error) message. -/
structure RunIds where
  userId : String
  userTs : Nat
  thinkingId : String
  thinkingTs : Nat
  finalId : String
  finalTs : Nat
deriving DecidableEq, Repr

/-- The user message inserted at submission (src/App.tsx lines 75-82). -/
def userMsg (ids : RunIds) (content : String) : Message :=
  { id := ids.userId, role := .user, content := content, timestamp := ids.userTs }

/-- The transient status message inserted at submission (src/App.tsx lines 94-99). -/
def thinkingMsg (ids : RunIds) : Message :=
  { id := ids.thinkingId, role := .system, content := thinkingContent,
    timestamp := ids.thinkingTs }

/-- The completion message appended at stream end (src/App.tsx lines 133-138). -/
def completionMsg (ids : RunIds) (topic : String) : Message :=
  { id := ids.finalId, role := .ai, content := completionContent topic,
    timestamp := ids.finalTs }

/-- The error message appended at stream error (src/App.tsx lines 143-148). -/
def errorMsg (ids : RunIds) : Message :=
  { id := ids.finalId, role := .system, content := errorContent,
    timestamp := ids.finalTs }

/-- Is a string blank, that is, does trimming leave nothing?  The JS test
!input.trim() holds exactly when every character of the input is whitespace. -/
def blankInput (s : String) : Bool :=
  s.data.all (fun c => c.isWhitespace)

/-- The rejection guard at the top of handleSend (src/App.tsx line 73):
blank input or an active research session. -/
def guardReject (st : AppState) : Bool :=
  blankInput st.input || st.isResearching

/-- The state changes handleSend performs before consuming the stream, once the
guard has passed: append the user and status messages, clear the input, raise
the researching flag, append the session separator (src/App.tsx lines 75-99). -/
def submitCore (st : AppState) (ids : RunIds) : AppState :=
  { input := "",
    messages := st.messages ++ [userMsg ids st.input, thinkingMsg ids],
    isResearching := true,
    artifactContent := submitArtifact st.artifactContent,
    groundingSources := st.groundingSources }

/-- The submit transition including its guard. -/
def submit (st : AppState) (ids : RunIds) : AppState :=
  if guardReject st then st else submitCore st ids

/-- Removal of the transient status message by id (src/App.tsx lines 133, 143). -/
def removeThinking (msgs : List Message) (tid : String) : List Message :=
  msgs.filter (fun m => m.id != tid)

/-- The stream-end transition: drop the status message, append the completion
message, clear the researching flag (src/App.tsx lines 133-138 and 150). -/
def onStreamEnd (st : AppState) (topic : String) (ids : RunIds) : AppState :=
  { st with
    messages := removeThinking st.messages ids.thinkingId ++ [completionMsg ids topic],
    isResearching := false }

/-- The stream-error transition: drop the status message, append the error
message, clear the researching flag (src/App.tsx lines 143-148 and 150). -/
def onStreamError (st : AppState) (ids : RunIds) : AppState :=
  { st with
    messages := removeThinking st.messages ids.thinkingId ++ [errorMsg ids],
    isResearching := false }

/-- How a streaming session ends: either the whole chunk sequence is consumed,
or the stream raises after delivering a prefix of chunks. -/
inductive StreamOutcome where
  | success (chunks : List StreamChunk)
  | failure (chunks : List StreamChunk)
deriving DecidableEq, Repr

/-- A full run of handleSend (src/App.tsx lines 72-154): guard, submission,
chunk consumption, then the terminal transition determined by the outcome. -/
def handleSend (st : AppState) (outcome : StreamOutcome) (ids : RunIds) : AppState :=
  if guardReject st then st
  else
    let st1 := submitCore st ids
    match outcome with
    | .success chunks => onStreamEnd (chunks.foldl onChunk st1) st.input ids
    | .failure chunks => onStreamError (chunks.foldl onChunk st1) ids

/-- The texts of the chunks whose text access does not throw, in arrival order. -/
def extractedTexts (chunks : List StreamChunk) : List String :=
  chunks.filterMap (fun c =>
    match c.text with
    | .ok t => some t
    | .throws => none)

/-- Concatenation of a list of strings in order. -/
def concatList : List String → String
  | [] => ""
  | t :: ts => t ++ concatList ts

/-- The uris carried by the elements of a grounding-source list. -/
def urisOf (l : List GroundingChunk) : List String :=
  l.filterMap (fun c => c.web.map (fun w => w.uri))

/-- The welcome message the application starts with (src/App.tsx lines 40-47). -/
def welcomeMsg : Message :=
  { id := "welcome", role := .ai,
    content := "Hello. I am your Deep Research Assistant. Give me a topic, and I will conduct a comprehensive analysis, searching the web for the latest data.",
    timestamp := 0 }

/-- The initial application state (src/App.tsx lines 39-52). -/
def initialState : AppState :=
  { input := "", messages := [welcomeMsg], isResearching := false,
    artifactContent := "", groundingSources := [] }

example : concatList ["a", "b"] = "ab" := by decide

example :
    mergeSources [] [⟨some ⟨"a.com", "A"⟩⟩, ⟨some ⟨"a.com", "A"⟩⟩]
      = [⟨some ⟨"a.com", "A"⟩⟩, ⟨some ⟨"a.com", "A"⟩⟩] := by decide

/-- The text a chunk contributes to the artifact: its text when access
succeeds, nothing when it throws. -/
def chunkText (c : StreamChunk) : String :=
  match c.text with
  | .ok t => t
  | .throws => ""

theorem processChunk_fst (a : String) (s : List GroundingChunk) (c : StreamChunk) :
    (processChunk (a, s) c).1 = a ++ chunkText c := by
  obtain ⟨tx, g⟩ := c
  cases tx with
  | throws => simp [processChunk, chunkText]
  | ok t =>
    by_cases ht : t = ""
    · subst ht; simp [processChunk, chunkText]
    · simp [processChunk, chunkText, ht]

theorem onChunk_messages (st : AppState) (c : StreamChunk) :
    (onChunk st c).messages = st.messages := rfl

theorem onChunk_isResearching (st : AppState) (c : StreamChunk) :
    (onChunk st c).isResearching = st.isResearching := rfl

theorem onChunk_input (st : AppState) (c : StreamChunk) :
    (onChunk st c).input = st.input := rfl

theorem foldl_onChunk_messages (chunks : List StreamChunk) (st : AppState) :
    (chunks.foldl onChunk st).messages = st.messages := by
  induction chunks generalizing st with
  | nil => rfl
  | cons c cs ih => rw [List.foldl_cons, ih, onChunk_messages]

theorem foldl_onChunk_artifact (chunks : List StreamChunk) (st : AppState) :
    (chunks.foldl onChunk st).artifactContent
      = st.artifactContent ++ concatList (extractedTexts chunks) := by
  induction chunks generalizing st with
  | nil => simp [extractedTexts, concatList]
  | cons c cs ih =>
    rw [List.foldl_cons, ih]
    have harts : (onChunk st c).artifactContent = st.artifactContent ++ chunkText c :=
      processChunk_fst st.artifactContent st.groundingSources c
    rw [harts, String.append_assoc]
    obtain ⟨tx, g⟩ := c
    cases tx with
    | throws => simp [extractedTexts, chunkText]
    | ok t => simp [extractedTexts, chunkText, concatList]

theorem onStreamEnd_artifact (st : AppState) (topic : String) (ids : RunIds) :
    (onStreamEnd st topic ids).artifactContent = st.artifactContent := rfl

theorem onStreamError_artifact (st : AppState) (ids : RunIds) :
    (onStreamError st ids).artifactContent = st.artifactContent := rfl

theorem submitArtifact_eq (prev : String) :
    submitArtifact prev = if prev ≠ "" then prev ++ separator else "" := by
  by_cases h : prev = "" <;> simp [submitArtifact, h]

/-- A concrete state used to instantiate theorems with hypotheses. -/
def wState : AppState :=
  { input := "topic", messages := [], isResearching := false,
    artifactContent := "prior", groundingSources := [] }

/-- Concrete identifiers used to instantiate theorems with hypotheses. -/
def wIds : RunIds :=
  { userId := "1", userTs := 0, thinkingId := "thinking-1", thinkingTs := 0,
    finalId := "2", finalTs := 1 }

/-- A concrete chunk list containing ordinary, suppressed and citation-bearing chunks. -/
def wChunks : List StreamChunk :=
  [ { text := .ok "abc", groundingChunks := none },
    { text := .throws, groundingChunks := none },
    { text := .ok "de", groundingChunks := some [⟨some ⟨"a.com", "A"⟩⟩] } ]

/-- Claim C1: after a successful streaming session started from an idle state
with non-blank input, the artifact content equals the prior content, followed
by the session separator exactly when the prior content is non-empty, followed
by the extracted texts of the consumed chunks concatenated in arrival order,
with no reordering and no deduplication. -/
theorem C1_artifact_after_success (st : AppState) (chunks : List StreamChunk)
    (ids : RunIds) (hidle : st.isResearching = false) (hinput : blankInput st.input = false) :
    (handleSend st (.success chunks) ids).artifactContent =
      (if st.artifactContent ≠ "" then st.artifactContent ++ separator else "")
        ++ concatList (extractedTexts chunks) := by
  have hg : guardReject st = false := by simp [guardReject, hidle, hinput]
  simp only [handleSend, hg, Bool.false_eq_true, if_false]
  rw [onStreamEnd_artifact, foldl_onChunk_artifact]
  have hsub : (submitCore st ids).artifactContent = submitArtifact st.artifactContent := rfl
  rw [hsub, submitArtifact_eq]

theorem C1_witness :
    wState.isResearching = false ∧ blankInput wState.input = false ∧
    (handleSend wState (.success wChunks) wIds).artifactContent =
      (if wState.artifactContent ≠ "" then wState.artifactContent ++ separator else "")
        ++ concatList (extractedTexts wChunks) :=
  ⟨rfl, by decide, C1_artifact_after_success wState wChunks wIds rfl (by decide)⟩

/-- Claim C5: while Researching, invoking Submit is a complete no-op: the
whole state (message list, artifact content, citation set, researching flag,
input) is unchanged, whatever stream the call would have consumed. -/
theorem C5_submit_noop_while_researching (st : AppState) (outcome : StreamOutcome)
    (ids : RunIds) (h : st.isResearching = true) :
    handleSend st outcome ids = st := by
  have hg : guardReject st = true := by simp [guardReject, h]
  simp [handleSend, hg]

theorem C5_witness :
    ({ wState with isResearching := true } : AppState).isResearching = true ∧
    handleSend { wState with isResearching := true } (.success wChunks) wIds
      = { wState with isResearching := true } :=
  ⟨rfl, C5_submit_noop_while_researching _ _ _ rfl⟩

/-- Claim C8: submission with input that is empty or only whitespace is
silently rejected with no state change at all. -/
theorem C8_blank_input_noop (st : AppState) (outcome : StreamOutcome)
    (ids : RunIds) (h : blankInput st.input = true) :
    handleSend st outcome ids = st := by
  have hg : guardReject st = true := by simp [guardReject, h]
  simp [handleSend, hg]

theorem C8_witness :
    blankInput ({ wState with input := "   " } : AppState).input = true ∧
    handleSend { wState with input := "   " } (.success wChunks) wIds
      = { wState with input := "   " } :=
  ⟨by decide, C8_blank_input_noop _ _ _ (by decide)⟩

/-- Claim C9: a chunk whose text access succeeds with the empty string
contributes nothing to the artifact while its citation metadata is still
merged: the non-empty-text guard applies only to the artifact append. -/
theorem C9_empty_text_still_merges (a : String) (s gs : List GroundingChunk) :
    processChunk (a, s) { text := .ok "", groundingChunks := some gs }
      = (a, mergeSources s gs) := by
  simp [processChunk]

theorem urisOf_append (l₁ l₂ : List GroundingChunk) :
    urisOf (l₁ ++ l₂) = urisOf l₁ ++ urisOf l₂ :=
  List.filterMap_append l₁ l₂ _

theorem hasUri_iff (prev : List GroundingChunk) (u : String) :
    hasUri prev u = true ↔ u ∈ urisOf prev := by
  simp [hasUri, urisOf, List.any_eq_true, List.mem_filterMap]

theorem keepNew_not_mem (prev : List GroundingChunk) (c : GroundingChunk)
    (h : keepNew prev c = true) :
    ∃ w, c.web = some w ∧ w.uri ≠ "" ∧ w.uri ∉ urisOf prev := by
  cases hw : c.web with
  | none => simp [keepNew, hw] at h
  | some w =>
    rw [keepNew, hw] at h
    rw [Bool.and_eq_true, bne_iff_ne, Bool.not_eq_true'] at h
    refine ⟨w, rfl, h.1, ?_⟩
    rw [← hasUri_iff, h.2]
    exact Bool.false_ne_true

theorem urisOf_filter_disjoint (prev batch : List GroundingChunk) :
    (urisOf prev).Disjoint (urisOf (batch.filter (keepNew prev))) := by
  intro u hu hv
  rw [urisOf, List.mem_filterMap] at hv
  obtain ⟨c, hc, hmap⟩ := hv
  rw [List.mem_filter] at hc
  obtain ⟨w, hw, -, hnot⟩ := keepNew_not_mem prev c hc.2
  rw [hw, Option.map_some'] at hmap
  cases hmap
  exact hnot hu

/-- A concrete prior source list for instantiating merge theorems. -/
def wPrev : List GroundingChunk := [⟨some ⟨"a.com", "A"⟩⟩]

/-- A concrete incoming batch for instantiating merge theorems. -/
def wBatch : List GroundingChunk := [⟨some ⟨"b.com", "B"⟩⟩]

/-- A batch that carries the same uri twice. -/
def dupBatch : List GroundingChunk := [⟨some ⟨"a.com", "A"⟩⟩, ⟨some ⟨"a.com", "A"⟩⟩]

/-- Claim C2, counterexample: merging into the empty source list a single
batch that carries the uri a.com twice keeps both copies, so the resulting
list contains two entries with equal uri, contradicting the claim that this
never happens. -/
theorem C2_counterexample :
    mergeSources [] dupBatch = dupBatch ∧ ¬ (urisOf dupBatch).Nodup := by
  decide

/-- Claim C2 (amended): the merge deduplicates an incoming batch against the
uris already present, so provided the accumulated list has pairwise distinct
uris and the incoming batch has no internal uri duplicate, the result has
pairwise distinct uris; the existing entries are kept as an initial segment in
order of first appearance; and a batch whose uris are all already present
leaves the list unchanged in size.  Duplicates inside a single batch are not
removed, which is what the counterexample exhibits. -/
theorem C2_merge_dedup (prev batch : List GroundingChunk)
    (hprev : (urisOf prev).Nodup) (hbatch : (urisOf batch).Nodup) :
    (urisOf (mergeSources prev batch)).Nodup ∧
    (∃ added, mergeSources prev batch = prev ++ added) ∧
    ((∀ c ∈ batch, ∀ w, c.web = some w → hasUri prev w.uri = true) →
      (mergeSources prev batch).length = prev.length) := by
  refine ⟨?_, ⟨batch.filter (keepNew prev), rfl⟩, ?_⟩
  · rw [mergeSources, urisOf_append, List.nodup_append]
    refine ⟨hprev, ?_, ?_⟩
    · exact hbatch.sublist (List.Sublist.filterMap _ (List.filter_sublist batch))
    · exact urisOf_filter_disjoint prev batch
  · intro hall
    have hnil : batch.filter (keepNew prev) = [] := by
      rw [List.filter_eq_nil_iff]
      intro c hc
      cases hw : c.web with
      | none => simp [keepNew, hw]
      | some w =>
        have hmem := hall c hc w hw
        simp [keepNew, hw, hmem]
    rw [mergeSources, hnil, List.append_nil]

theorem C2_witness :
    (urisOf wPrev).Nodup ∧ (urisOf wBatch).Nodup ∧
    ((urisOf (mergeSources wPrev wBatch)).Nodup ∧
     (∃ added, mergeSources wPrev wBatch = wPrev ++ added) ∧
     ((∀ c ∈ wBatch, ∀ w, c.web = some w → hasUri wPrev w.uri = true) →
       (mergeSources wPrev wBatch).length = wPrev.length)) :=
  ⟨by decide, by decide, C2_merge_dedup wPrev wBatch (by decide) (by decide)⟩

/-- A chunk whose text access throws and which carries a citation. -/
def suppChunk : StreamChunk :=
  { text := .throws, groundingChunks := some [⟨some ⟨"b.com", "B"⟩⟩] }

/-- Claim C3, counterexample: processing a chunk whose text access throws
leaves the source list empty even though the chunk carries a citation whose
merge would have added an entry, contradicting the claim that the citation
metadata of a suppressed chunk is still merged. -/
theorem C3_counterexample :
    (onChunk wState suppChunk).groundingSources = [] ∧
    mergeSources wState.groundingSources [⟨some ⟨"b.com", "B"⟩⟩] ≠ [] := by
  constructor
  · rfl
  · decide

/-- Claim C3 (amended): a chunk whose text access throws is skipped wholesale
by the continue statement: it contributes no text, and its citation metadata
is not merged either; the stream is not aborted, and the subsequent chunks are
processed exactly as they would be had the suppressed chunk never arrived. -/
theorem C3_suppressed_chunk_skipped (st : AppState) (c : StreamChunk)
    (hc : c.text = .throws) (rest : List StreamChunk) :
    onChunk st c = st ∧ (c :: rest).foldl onChunk st = rest.foldl onChunk st := by
  have h1 : onChunk st c = st := by
    obtain ⟨tx, g⟩ := c
    cases tx with
    | ok t => simp at hc
    | throws => rfl
  exact ⟨h1, by rw [List.foldl_cons, h1]⟩

theorem C3_witness :
    suppChunk.text = .throws ∧
    (onChunk wState suppChunk = wState ∧
     (suppChunk :: wChunks).foldl onChunk wState = wChunks.foldl onChunk wState) :=
  ⟨rfl, C3_suppressed_chunk_skipped wState suppChunk rfl wChunks⟩

/-- The scenario starting state of claim C4: empty artifact, topic submitted. -/
def c4State : AppState :=
  { input := "Quantum Computing", messages := [welcomeMsg], isResearching := false,
    artifactContent := "", groundingSources := [] }

/-- The three scenario chunks of claim C4; the third chunk has empty extracted
text (its content was suppressed) and still carries a citation. -/
def c4Chunks : List StreamChunk :=
  [ { text := .ok "# Quantum\n", groundingChunks := some [⟨some ⟨"a.com", "A"⟩⟩] },
    { text := .ok "## History\n...", groundingChunks := some [⟨some ⟨"a.com", "A"⟩⟩] },
    { text := .ok "", groundingChunks := some [⟨some ⟨"b.com", "B"⟩⟩] } ]

/-- Claim C4: from an empty prior artifact, submitting the quantum-computing
topic and consuming the three scenario chunks yields exactly the two texts
concatenated as artifact content, and the citation set holds a.com then b.com,
the duplicate a.com citation having been dropped. -/
theorem C4_scenario :
    (handleSend c4State (.success c4Chunks) wIds).artifactContent
        = "# Quantum\n## History\n..." ∧
    (handleSend c4State (.success c4Chunks) wIds).groundingSources
        = [⟨some ⟨"a.com", "A"⟩⟩, ⟨some ⟨"b.com", "B"⟩⟩] := by
  decide

/-- Claim C6, counterexample: the transient status message is in the list
right after submission and is no longer in the list after the stream-end
transition, contradicting the claim that every message already in the list
remains in the list across every operation. -/
theorem C6_counterexample :
    thinkingMsg wIds ∈ (submit wState wIds).messages ∧
    thinkingMsg wIds ∉ (onStreamEnd (submit wState wIds) "topic" wIds).messages := by
  decide

theorem removeThinking_submitted (msgs : List Message) (tid : String)
    (u t : Message) (hfresh : ∀ m ∈ msgs, m.id ≠ tid)
    (hu : u.id ≠ tid) (ht : t.id = tid) :
    removeThinking (msgs ++ [u, t]) tid = msgs ++ [u] := by
  rw [removeThinking, List.filter_append]
  congr 1
  · exact List.filter_eq_self.mpr (fun m hm => by simpa using hfresh m hm)
  · simp [List.filter_cons, hu, ht]

/-- Claim C6 (amended): across the operations of the state machine the message
list grows by appending at the end and is never reordered, with one exception:
the terminal transitions remove the transient status message inserted at
submission.  Submission appends the user message and the status message, chunk
arrival leaves the list unchanged, and stream end and stream error remove
exactly the status message and append the final message, keeping every other
message in place and in order. -/
theorem C6_messages_evolution (st : AppState) (ids : RunIds) (c : StreamChunk)
    (topic : String) (hguard : guardReject st = false)
    (hfresh : ∀ m ∈ st.messages, m.id ≠ ids.thinkingId)
    (huid : ids.userId ≠ ids.thinkingId) :
    (submit st ids).messages
        = st.messages ++ [userMsg ids st.input, thinkingMsg ids] ∧
    (onChunk st c).messages = st.messages ∧
    (onStreamEnd (submit st ids) topic ids).messages
        = st.messages ++ [userMsg ids st.input, completionMsg ids topic] ∧
    (onStreamError (submit st ids) ids).messages
        = st.messages ++ [userMsg ids st.input, errorMsg ids] := by
  have hsub : submit st ids = submitCore st ids := by
    rw [submit, hguard]
    simp
  have hrem :
      removeThinking (submitCore st ids).messages ids.thinkingId
        = st.messages ++ [userMsg ids st.input] :=
    removeThinking_submitted st.messages ids.thinkingId _ _ hfresh huid rfl
  refine ⟨by rw [hsub]; rfl, rfl, ?_, ?_⟩
  · show removeThinking (submit st ids).messages ids.thinkingId
        ++ [completionMsg ids topic] = _
    rw [hsub, hrem, List.append_assoc]
    rfl
  · show removeThinking (submit st ids).messages ids.thinkingId
        ++ [errorMsg ids] = _
    rw [hsub, hrem, List.append_assoc]
    rfl

theorem C6_witness :
    guardReject wState = false ∧
    (∀ m ∈ wState.messages, m.id ≠ wIds.thinkingId) ∧
    wIds.userId ≠ wIds.thinkingId ∧
    ((submit wState wIds).messages
        = wState.messages ++ [userMsg wIds wState.input, thinkingMsg wIds] ∧
     (onChunk wState suppChunk).messages = wState.messages ∧
     (onStreamEnd (submit wState wIds) "topic" wIds).messages
        = wState.messages ++ [userMsg wIds wState.input, completionMsg wIds "topic"] ∧
     (onStreamError (submit wState wIds) wIds).messages
        = wState.messages ++ [userMsg wIds wState.input, errorMsg wIds]) :=
  ⟨by decide, by decide, by decide,
    C6_messages_evolution wState wIds suppChunk "topic" (by decide) (by decide)
      (by decide)⟩

/-- Claim C7: when the stream fails after some chunks have been merged, the
session returns to Idle, exactly one system-role error message is appended
after the user message, and the artifact content already appended before the
failure is retained, not rolled back. -/
theorem C7_stream_error_retains_artifact (st : AppState) (ids : RunIds)
    (chunks : List StreamChunk) (hidle : st.isResearching = false)
    (hinput : blankInput st.input = false)
    (hfresh : ∀ m ∈ st.messages, m.id ≠ ids.thinkingId)
    (huid : ids.userId ≠ ids.thinkingId) :
    (handleSend st (.failure chunks) ids).isResearching = false ∧
    (handleSend st (.failure chunks) ids).artifactContent
      = (if st.artifactContent ≠ "" then st.artifactContent ++ separator else "")
          ++ concatList (extractedTexts chunks) ∧
    (handleSend st (.failure chunks) ids).messages
      = st.messages ++ [userMsg ids st.input, errorMsg ids] ∧
    (errorMsg ids).role = .system := by
  have hg : guardReject st = false := by simp [guardReject, hidle, hinput]
  simp only [handleSend, hg, Bool.false_eq_true, if_false]
  refine ⟨rfl, ?_, ?_, rfl⟩
  · rw [onStreamError_artifact, foldl_onChunk_artifact]
    have hsub : (submitCore st ids).artifactContent
        = submitArtifact st.artifactContent := rfl
    rw [hsub, submitArtifact_eq]
  · show removeThinking (chunks.foldl onChunk (submitCore st ids)).messages
        ids.thinkingId ++ [errorMsg ids] = _
    rw [foldl_onChunk_messages]
    have hrem :
        removeThinking (submitCore st ids).messages ids.thinkingId
          = st.messages ++ [userMsg ids st.input] :=
      removeThinking_submitted st.messages ids.thinkingId _ _ hfresh huid rfl
    rw [hrem, List.append_assoc]
    rfl

theorem C7_witness :
    wState.isResearching = false ∧ blankInput wState.input = false ∧
    (∀ m ∈ wState.messages, m.id ≠ wIds.thinkingId) ∧
    wIds.userId ≠ wIds.thinkingId ∧
    ((handleSend wState (.failure wChunks) wIds).isResearching = false ∧
     (handleSend wState (.failure wChunks) wIds).artifactContent
       = (if wState.artifactContent ≠ "" then wState.artifactContent ++ separator
            else "") ++ concatList (extractedTexts wChunks) ∧
     (handleSend wState (.failure wChunks) wIds).messages
       = wState.messages ++ [userMsg wIds wState.input, errorMsg wIds] ∧
     (errorMsg wIds).role = .system) :=
  ⟨rfl, by decide, by decide, by decide,
    C7_stream_error_retains_artifact wState wIds wChunks rfl (by decide) (by decide)
      (by decide)⟩

/-- Claim C10: every entry the merge adds to the citation set carries a
defined, non-empty uri: an incoming record without a web field or with an
empty uri is filtered out and never enters the source list. -/
theorem C10_added_entries_have_uri (prev batch : List GroundingChunk)
    (c : GroundingChunk) (hc : c ∈ mergeSources prev batch) :
    c ∈ prev ∨ ∃ w, c.web = some w ∧ w.uri ≠ "" := by
  rw [mergeSources, List.mem_append] at hc
  rcases hc with h | h
  · exact Or.inl h
  · right
    rw [List.mem_filter] at h
    obtain ⟨w, hw, hne, -⟩ := keepNew_not_mem prev c h.2
    exact ⟨w, hw, hne⟩

theorem C10_witness :
    (⟨some ⟨"b.com", "B"⟩⟩ : GroundingChunk) ∈ mergeSources wPrev wBatch ∧
    ((⟨some ⟨"b.com", "B"⟩⟩ : GroundingChunk) ∈ wPrev ∨
      ∃ w, (⟨some ⟨"b.com", "B"⟩⟩ : GroundingChunk).web = some w ∧ w.uri ≠ "") :=
  ⟨by decide, C10_added_entries_have_uri wPrev wBatch _ (by decide)⟩

end DeepDive
